import Mathlib

/-!
# Verification of the go-peerflix session controller (`client.go`)

Shallow embedding of the Go source `client.go` of ssi379/go-peerflix.
Pure numeric code is translated to Lean functions; `float64` arithmetic
is idealised as exact rational arithmetic, with the non-finite values
produced by division by zero (NaN, plus and minus infinity) modelled
explicitly by the type `F` below.  Code with external effects
(the anacrolix/torrent engine, HTTP, the filesystem) is embedded by
passing the results of the external calls in explicitly as an
environment, keeping the source's control flow intact.
-/

namespace Peerflix

/-- Result of a `float64` computation in the Go source.  `fin q` is a
finite value idealised as the exact rational `q`; `posInf`, `negInf`
and `nan` are the IEEE-754 non-finite values that Go float division
by zero produces (`x/0` is `+Inf` for `x > 0`, `-Inf` for `x < 0`,
and `NaN` for `x = 0`). -/
inductive F where
  | fin (q : ℚ)
  | posInf
  | negInf
  | nan
deriving DecidableEq, Repr

/-- Go `float64` division `a / b` (with both operands converted from
integers): division by zero yields the IEEE non-finite values instead
of trapping. -/
def fdiv (a b : ℤ) : F :=
  if b = 0 then
    if a = 0 then F.nan
    else if 0 < a then F.posInf
    else F.negInf
  else F.fin ((a : ℚ) / (b : ℚ))

/-- Multiplication of a `float64` value by the positive literal `100`. -/
def fmul100 (x : F) : F :=
  match x with
  | F.fin q => F.fin (q * 100)
  | F.posInf => F.posInf
  | F.negInf => F.negInf
  | F.nan => F.nan

/-- Go comparison `x > c` on a `float64` value `x` and a finite literal
`c`: any comparison with NaN is false; `+Inf > c` is true. -/
def fgtLit (x : F) (c : ℚ) : Bool :=
  match x with
  | F.fin q => decide (c < q)
  | F.posInf => true
  | F.negInf => false
  | F.nan => false

/-- `func (c Client) percentage() float64`:
`float64(c.Torrent.BytesCompleted()) / float64(c.Torrent.Length()) * 100`. -/
def percentage (bytesCompleted totalLength : ℤ) : F :=
  fmul100 (fdiv bytesCompleted totalLength)

/-- `func (c Client) ReadyForPlayback() bool`: `c.percentage() > 5`. -/
def ReadyForPlayback (bytesCompleted totalLength : ℤ) : Bool :=
  fgtLit (percentage bytesCompleted totalLength) 5

/-- The progress line of `func (c *Client) Render()`: the percentage is
printed only under the guard `if currentProgress > 0`; `none` models the
absence of the progress line from the rendered output. -/
def renderedPercentage (bytesCompleted totalLength : ℤ) : Option F :=
  if 0 < bytesCompleted then some (percentage bytesCompleted totalLength)
  else none

/-- On a positive total length, the gate compares the exact completed
fraction with the threshold `5 / 100`. -/
lemma ready_iff_of_pos {b len : ℤ} (h : 0 < len) :
    ReadyForPlayback b len = true ↔ (5 / 100 : ℚ) < (b : ℚ) / (len : ℚ) := by
  unfold ReadyForPlayback percentage fdiv fmul100 fgtLit
  rw [if_neg h.ne']
  simp only [decide_eq_true_eq]
  constructor
  · intro hq
    linarith
  · intro hq
    linarith

/-- On a zero total length, the gate is true exactly for positive
byte counts (where the float quotient is `+Inf`). -/
lemma ready_zero_len_iff (b : ℤ) :
    ReadyForPlayback b 0 = true ↔ 0 < b := by
  unfold ReadyForPlayback percentage fdiv fmul100 fgtLit
  rcases lt_trichotomy b 0 with hb | hb | hb
  · rw [if_pos rfl, if_neg hb.ne, if_neg (by omega)]
    simp
    omega
  · subst hb
    simp
  · rw [if_pos rfl, if_neg hb.ne', if_pos hb]
    simp
    omega

/-- C1: the claim says `ReadyForPlayback` is true at a completed
fraction of exactly 5%; on `bytesCompleted = 5`, `totalLength = 100`
(where the float computation is exact) the fraction is not below
`5 / 100`, yet the code's strict comparison `percentage() > 5`
returns false. -/
theorem readyForPlayback_false_at_exact_five_percent :
    ReadyForPlayback 5 100 = false ∧
    ¬ (((5 : ℤ) : ℚ) / ((100 : ℤ) : ℚ) < 5 / 100) := by
  constructor
  · unfold ReadyForPlayback percentage fdiv fmul100 fgtLit
    norm_num
  · norm_num

/-- C1 (amended): for a positive total length, `ReadyForPlayback` is
true exactly when the completed fraction is strictly greater than
5%; at exactly 5% it returns false. -/
theorem readyForPlayback_iff_strictly_above_threshold (b len : ℤ)
    (h : 0 < len) :
    ReadyForPlayback b len = true ↔ (5 / 100 : ℚ) < (b : ℚ) / (len : ℚ) :=
  ready_iff_of_pos h

/-- Witness for C1 (amended) at `bytesCompleted = 6`,
`totalLength = 100`. -/
theorem readyForPlayback_iff_strictly_above_threshold_witness :
    (0 : ℤ) < 100 ∧
    (ReadyForPlayback 6 100 = true ↔
      (5 / 100 : ℚ) < ((6 : ℤ) : ℚ) / ((100 : ℤ) : ℚ)) :=
  ⟨by decide, readyForPlayback_iff_strictly_above_threshold 6 100 (by decide)⟩

/-- C7: the readiness gate is monotone in `bytesCompleted` for a fixed
non-negative total length: once true, it stays true as completed bytes
only grow. -/
theorem readyForPlayback_monotone (len b1 b2 : ℤ) (hlen : 0 ≤ len)
    (h12 : b1 ≤ b2) (h1 : ReadyForPlayback b1 len = true) :
    ReadyForPlayback b2 len = true := by
  rcases hlen.eq_or_lt with hz | hpos
  · subst hz
    rw [ready_zero_len_iff] at h1 ⊢
    omega
  · rw [ready_iff_of_pos hpos] at h1 ⊢
    have hcast : (b1 : ℚ) ≤ (b2 : ℚ) := by exact_mod_cast h12
    have hlq : (0 : ℚ) < (len : ℚ) := by exact_mod_cast hpos
    have : (b1 : ℚ) / (len : ℚ) ≤ (b2 : ℚ) / (len : ℚ) :=
      (div_le_div_iff_of_pos_right hlq).mpr hcast
    linarith

/-- Witness for C7 at `len = 100`, `b1 = 6`, `b2 = 7`. -/
theorem readyForPlayback_monotone_witness :
    (0 : ℤ) ≤ 100 ∧ (6 : ℤ) ≤ 7 ∧ ReadyForPlayback 6 100 = true ∧
    ReadyForPlayback 7 100 = true := by
  have h6 : ReadyForPlayback 6 100 = true := by
    unfold ReadyForPlayback percentage fdiv fmul100 fgtLit
    norm_num
  exact ⟨by decide, by decide, h6,
    readyForPlayback_monotone 100 6 7 (by decide) (by decide) h6⟩

/-- C4: the claim says a zero-length session reports its percentage as 0
with no NaN produced; in fact the rendered output contains no progress
line at all (the `currentProgress > 0` guard fails), and the percentage
computation itself produces NaN (`0/0`). -/
theorem renderedPercentage_zero_length_counterexample :
    renderedPercentage 0 0 = none ∧ percentage 0 0 = F.nan := by
  constructor
  · unfold renderedPercentage
    norm_num
  · unfold percentage fdiv fmul100
    norm_num

/-- C4 (amended): for a session of zero total length (whose completed
byte count is then also zero), `Render` prints no percentage line at
all, and the NaN produced by the `0/0` percentage computation only
makes the readiness gate report false. -/
theorem render_zero_length_reports_nothing (b len : ℤ) (hlen : len = 0)
    (hble : b ≤ len) (hb0 : 0 ≤ b) :
    renderedPercentage b len = none ∧ ReadyForPlayback b len = false := by
  have hb : b = 0 := le_antisymm (hlen ▸ hble) hb0
  subst hb
  subst hlen
  constructor
  · unfold renderedPercentage
    norm_num
  · unfold ReadyForPlayback percentage fdiv fmul100 fgtLit
    norm_num

/-- Witness for C4 (amended) at `b = 0`, `len = 0`. -/
theorem render_zero_length_reports_nothing_witness :
    (0 : ℤ) = 0 ∧ (0 : ℤ) ≤ 0 ∧ (0 : ℤ) ≤ 0 ∧
    (renderedPercentage 0 0 = none ∧ ReadyForPlayback 0 0 = false) :=
  ⟨by decide, by decide, by decide,
    render_zero_length_reports_nothing 0 0 (by decide) (by decide) (by decide)⟩

/-- Piece download priority, as used by the source (the engine's other
levels play no role in `client.go`).  `normal` is the untouched default
of a piece; the goroutine in `NewClient` raises pieces to `readahead`. -/
inductive PiecePriority where
  | normal
  | readahead
deriving DecidableEq, Repr

/-- One iteration of the prioritisation loop:
`t.Pieces[i].Priority = torrent.PiecePriorityReadahead`. -/
def bumpAt (ps : ℕ → PiecePriority) (i : ℕ) : ℕ → PiecePriority :=
  fun j => if j = i then PiecePriority.readahead else ps j

/-- The loop bound of the prioritisation loop in `NewClient`:
`for i := 0; i < len(t.Pieces)/100*5; i++` — Go integer division
truncates. -/
def initialReadaheadCount (pieceCount : ℕ) : ℕ :=
  pieceCount / 100 * 5

/-- State established by the goroutine in `NewClient` once the
metadata-available signal `<-t.GotInfo()` has fired. -/
structure MetadataInitState where
  downloadAllCalled : Bool
  piecePriority : ℕ → PiecePriority

/-- The body of the goroutine in `NewClient`: after `<-t.GotInfo()`,
call `t.DownloadAll()` and run the prioritisation loop over piece
indices `0, …, len(t.Pieces)/100*5 - 1` starting from all-default
priorities. -/
def afterGotInfo (pieceCount : ℕ) : MetadataInitState :=
  { downloadAllCalled := true
    piecePriority :=
      (List.range (initialReadaheadCount pieceCount)).foldl bumpAt
        (fun _ => PiecePriority.normal) }

/-- Running the prioritisation loop for `c` iterations marks exactly the
indices below `c`. -/
lemma foldl_bumpAt (c : ℕ) (f : ℕ → PiecePriority) (j : ℕ) :
    ((List.range c).foldl bumpAt f) j =
      if j < c then PiecePriority.readahead else f j := by
  induction c generalizing f with
  | zero => simp
  | succ n ih =>
    rw [List.range_succ, List.foldl_append, List.foldl_cons, List.foldl_nil]
    have hX := ih f
    generalize hG : List.foldl bumpAt f (List.range n) = X at hX ⊢
    unfold bumpAt
    by_cases hj : j = n
    · rw [if_pos hj, if_pos (by omega)]
    · rw [if_neg hj, hX]
      by_cases hj2 : j < n
      · rw [if_pos hj2, if_pos (by omega)]
      · rw [if_neg hj2, if_neg (by omega)]

/-- C2: the claim says the initial readahead covers the first
`ceil(0.05 * totalPieceCount)` pieces, hence at least one piece for any
non-empty torrent; with 10 pieces the ceiling is `1`, yet the truncating
loop bound `10/100*5 = 0` leaves piece 0 (and every piece) at the
default priority. -/
theorem initialReadahead_misses_small_torrent :
    (afterGotInfo 10).piecePriority 0 = PiecePriority.normal ∧
    initialReadaheadCount 10 = 0 ∧ (5 * 10 + 99) / 100 = 1 := by
  refine ⟨?_, by decide, by decide⟩
  rfl

/-- C2 (amended): once the metadata-available signal fires, the goroutine
instructs the engine to download all pieces, and marks exactly the first
`(totalPieceCount / 100) * 5` pieces (Go truncating integer division) as
readahead — which is no piece at all whenever `totalPieceCount < 100`. -/
theorem initialReadahead_exact_truncated_window (n i : ℕ) :
    (afterGotInfo n).downloadAllCalled = true ∧
    ((afterGotInfo n).piecePriority i = PiecePriority.readahead ↔
      i < n / 100 * 5) := by
  constructor
  · rfl
  · unfold afterGotInfo
    simp only
    rw [foldl_bumpAt]
    constructor
    · intro h
      by_contra hc
      rw [if_neg (by unfold initialReadaheadCount; omega)] at h
      exact PiecePriority.noConfusion h
    · intro h
      rw [if_pos (by unfold initialReadaheadCount; omega)]

/-- The two engine calls made by `func (c *Client) Close()`, in program
order. -/
inductive TeardownEvent where
  | dropTorrent
  | closeClient
deriving DecidableEq, Repr

/-- `func (c *Client) Close()`: `c.Torrent.Drop()` then
`c.Client.Close()`, as the trace of engine calls it performs. -/
def closeTrace : List TeardownEvent :=
  [TeardownEvent.dropTorrent, TeardownEvent.closeClient]

/-- C5: teardown always drops the torrent strictly before closing the
engine session: both calls occur in the trace of `Close()`, and the drop
occurs at a strictly earlier position. -/
theorem close_drops_before_closing :
    TeardownEvent.dropTorrent ∈ closeTrace ∧
    TeardownEvent.closeClient ∈ closeTrace ∧
    List.indexOf TeardownEvent.dropTorrent closeTrace <
      List.indexOf TeardownEvent.closeClient closeTrace := by
  refine ⟨?_, ?_, ?_⟩ <;> decide

/-- A file contained in the torrent session (`torrent.File`): the fields
`client.go` reads are its display path and its length. -/
structure TorrentFile where
  displayPath : String
  length : ℤ
deriving DecidableEq, Repr

/-- The Go zero value `var target torrent.File` that `getLargestFile`
starts from. -/
def zeroFile : TorrentFile :=
  { displayPath := "", length := 0 }

/-- The loop of `func (c Client) getLargestFile() *torrent.File`,
threading the mutable locals `target` and `maxSize`:
`if maxSize < file.Length() { maxSize = file.Length(); target = file }`. -/
def getLargestFileAux : List TorrentFile → TorrentFile → ℤ → TorrentFile
  | [], target, _ => target
  | f :: rest, target, maxSize =>
    if maxSize < f.length then getLargestFileAux rest f f.length
    else getLargestFileAux rest target maxSize

/-- `func (c Client) getLargestFile() *torrent.File`: fold the loop over
`c.Torrent.Files()` starting from the zero-value `target` and
`maxSize = 0`. -/
def getLargestFile (files : List TorrentFile) : TorrentFile :=
  getLargestFileAux files zeroFile 0

/-- The request-dependent data of an incoming HTTP request (method, URL
path, `Range` header); `GetFile` never consults any of it when choosing
which file to serve. -/
structure HTTPRequest where
  method : String
  urlPath : String
  rangeHeader : Option String
deriving DecidableEq, Repr

/-- `func (c Client) GetFile(w, r)` — the file it serves:
`target := c.getLargestFile()`, computed without reading the request. -/
def GetFileTarget (files : List TorrentFile) (_r : HTTPRequest) : TorrentFile :=
  getLargestFile files

/-- Invariant of the `getLargestFile` loop: starting from a running
maximum bounded by the current target's length, the loop returns either
the incoming target or a file of the list, its length dominates the
running maximum, and it dominates every file of the list. -/
lemma getLargestFileAux_spec (fs : List TorrentFile) :
    ∀ (t : TorrentFile) (m : ℤ), m ≤ t.length →
      (getLargestFileAux fs t m = t ∨ getLargestFileAux fs t m ∈ fs) ∧
      m ≤ (getLargestFileAux fs t m).length ∧
      ∀ f ∈ fs, f.length ≤ (getLargestFileAux fs t m).length := by
  induction fs with
  | nil =>
    intro t m hm
    exact ⟨Or.inl rfl, hm, by simp⟩
  | cons f rest ih =>
    intro t m hm
    by_cases hf : m < f.length
    · rw [getLargestFileAux, if_pos hf]
      obtain ⟨hmem, hbound, hall⟩ := ih f f.length le_rfl
      refine ⟨?_, hf.le.trans hbound, ?_⟩
      · rcases hmem with h | h
        · right
          rw [h]
          exact List.mem_cons_self f rest
        · exact Or.inr (List.mem_cons_of_mem f h)
      · intro g hg
        rcases List.mem_cons.mp hg with hg | hg
        · exact hg ▸ hbound
        · exact hall g hg
    · rw [getLargestFileAux, if_neg hf]
      obtain ⟨hmem, hbound, hall⟩ := ih t m hm
      refine ⟨?_, hbound, ?_⟩
      · rcases hmem with h | h
        · exact Or.inl h
        · exact Or.inr (List.mem_cons_of_mem f h)
      · intro g hg
        rcases List.mem_cons.mp hg with hg | hg
        · subst hg
          omega
        · exact hall g hg

/-- If every file of the list is bounded by the running maximum, the
loop never updates its target. -/
lemma getLargestFileAux_const (fs : List TorrentFile) :
    ∀ (t : TorrentFile) (m : ℤ), (∀ f ∈ fs, f.length ≤ m) →
      getLargestFileAux fs t m = t := by
  induction fs with
  | nil =>
    intro t m _
    rfl
  | cons f rest ih =>
    intro t m hall
    have hf : ¬ m < f.length := by
      have := hall f (List.mem_cons_self f rest)
      omega
    rw [getLargestFileAux, if_neg hf]
    exact ih t m (fun g hg => hall g (List.mem_cons_of_mem f hg))

/-- The loop returns the file at the earliest index dominating the whole
list (strictly longer than every file before it, at least as long as
every file after it), once its length exceeds the incoming running
maximum. -/
lemma getLargestFileAux_earliest (fs : List TorrentFile) :
    ∀ (i : ℕ) (t : TorrentFile) (m : ℤ), i < fs.length →
      m < (fs.getD i zeroFile).length →
      (∀ j < i, (fs.getD j zeroFile).length < (fs.getD i zeroFile).length) →
      (∀ j < fs.length, (fs.getD j zeroFile).length ≤ (fs.getD i zeroFile).length) →
      getLargestFileAux fs t m = fs.getD i zeroFile := by
  induction fs with
  | nil =>
    intro i t m hi
    simp at hi
  | cons f rest ih =>
    intro i t m hi hstrict hbefore hmax
    cases i with
    | zero =>
      simp only [List.getD_cons_zero] at hstrict hmax ⊢
      rw [getLargestFileAux, if_pos hstrict]
      apply getLargestFileAux_const
      intro g hg
      obtain ⟨j, hj, hget⟩ := List.getElem_of_mem hg
      have := hmax (j + 1) (by simpa using Nat.succ_lt_succ hj)
      rw [List.getD_cons_succ] at this
      rw [List.getD_eq_getElem?_getD, List.getElem?_eq_getElem hj] at this
      simpa [hget] using this
    | succ k =>
      have hf0 : f.length < ((f :: rest).getD (k + 1) zeroFile).length := by
        have := hbefore 0 (Nat.succ_pos k)
        simpa using this
      rw [List.getD_cons_succ] at hf0
      have hrest_len : k < rest.length := by
        simpa using Nat.lt_of_succ_lt_succ hi
      have hbefore' : ∀ j < k,
          (rest.getD j zeroFile).length < (rest.getD k zeroFile).length := by
        intro j hj
        have := hbefore (j + 1) (Nat.succ_lt_succ hj)
        simpa using this
      have hmax' : ∀ j < rest.length,
          (rest.getD j zeroFile).length ≤ (rest.getD k zeroFile).length := by
        intro j hj
        have := hmax (j + 1) (by simpa using Nat.succ_lt_succ hj)
        simpa using this
      rw [List.getD_cons_succ]
      by_cases hf : m < f.length
      · rw [getLargestFileAux, if_pos hf]
        exact ih k f f.length hrest_len hf0 hbefore' hmax'
      · rw [getLargestFileAux, if_neg hf]
        have hm' : m < (rest.getD k zeroFile).length := by
          rw [List.getD_cons_succ] at hstrict
          exact hstrict
        exact ih k t m hrest_len hm' hbefore' hmax'

/-- C3: when the session contains at least one file of positive length,
the file `GetFile` serves is a contained file of maximal length, and its
choice does not depend on the HTTP request. -/
theorem getFile_serves_largest_contained_file
    (files : List TorrentFile) (r r' : HTTPRequest) (f0 : TorrentFile)
    (hmem : f0 ∈ files) (hpos : 0 < f0.length) :
    GetFileTarget files r ∈ files ∧
    (∀ f ∈ files, f.length ≤ (GetFileTarget files r).length) ∧
    GetFileTarget files r = GetFileTarget files r' := by
  obtain ⟨hm, _, hall⟩ := getLargestFileAux_spec files zeroFile 0 le_rfl
  refine ⟨?_, fun f hf => hall f hf, rfl⟩
  rcases hm with h | h
  · exfalso
    have h0 : f0.length ≤ (getLargestFileAux files zeroFile 0).length :=
      hall f0 hmem
    rw [h] at h0
    simp only [zeroFile] at h0
    omega
  · exact h

/-- Witness for C3 on a two-file session and two distinct requests. -/
theorem getFile_serves_largest_contained_file_witness :
    TorrentFile.mk "a.mkv" 3 ∈
      [TorrentFile.mk "a.mkv" 3, TorrentFile.mk "b.mkv" 5] ∧
    (0 : ℤ) < (TorrentFile.mk "a.mkv" 3).length ∧
    (GetFileTarget [TorrentFile.mk "a.mkv" 3, TorrentFile.mk "b.mkv" 5]
        (HTTPRequest.mk "GET" "/" none) ∈
      [TorrentFile.mk "a.mkv" 3, TorrentFile.mk "b.mkv" 5] ∧
    (∀ f ∈ [TorrentFile.mk "a.mkv" 3, TorrentFile.mk "b.mkv" 5],
      f.length ≤ (GetFileTarget
        [TorrentFile.mk "a.mkv" 3, TorrentFile.mk "b.mkv" 5]
        (HTTPRequest.mk "GET" "/" none)).length) ∧
    GetFileTarget [TorrentFile.mk "a.mkv" 3, TorrentFile.mk "b.mkv" 5]
        (HTTPRequest.mk "GET" "/" none) =
      GetFileTarget [TorrentFile.mk "a.mkv" 3, TorrentFile.mk "b.mkv" 5]
        (HTTPRequest.mk "GET" "/x" (some "bytes=0-1"))) :=
  ⟨by decide, by decide,
    getFile_serves_largest_contained_file
      [TorrentFile.mk "a.mkv" 3, TorrentFile.mk "b.mkv" 5]
      (HTTPRequest.mk "GET" "/" none)
      (HTTPRequest.mk "GET" "/x" (some "bytes=0-1"))
      (TorrentFile.mk "a.mkv" 3) (by decide) (by decide)⟩

/-- C9: on an empty file list `getLargestFile` returns the zero-value
file descriptor (length 0, empty path) and `GetFile` serves from it;
on any list, the file returned is the earliest one that dominates the
whole list — strictly longer than every file before it, at least as long
as every file after it — provided its length is positive. -/
theorem getLargestFile_earliest_max_and_empty_zero :
    (getLargestFile [] = zeroFile ∧
      ∀ r, GetFileTarget [] r = zeroFile) ∧
    ∀ (fs : List TorrentFile) (i : ℕ), i < fs.length →
      0 < (fs.getD i zeroFile).length →
      (∀ j < i, (fs.getD j zeroFile).length < (fs.getD i zeroFile).length) →
      (∀ j < fs.length,
        (fs.getD j zeroFile).length ≤ (fs.getD i zeroFile).length) →
      getLargestFile fs = fs.getD i zeroFile := by
  refine ⟨⟨rfl, fun _ => rfl⟩, ?_⟩
  intro fs i hi hpos hbefore hmax
  exact getLargestFileAux_earliest fs i zeroFile 0 hi hpos hbefore hmax

/-- Witness for C9: empty session, and a session whose maximum length 5
first occurs at index 1 (tied with index 2). -/
theorem getLargestFile_earliest_max_and_empty_zero_witness :
    (getLargestFile [] = zeroFile ∧
      GetFileTarget [] (HTTPRequest.mk "GET" "/" none) = zeroFile) ∧
    getLargestFile [TorrentFile.mk "a" 3, TorrentFile.mk "b" 5,
        TorrentFile.mk "c" 5] =
      [TorrentFile.mk "a" 3, TorrentFile.mk "b" 5,
        TorrentFile.mk "c" 5].getD 1 zeroFile :=
  ⟨⟨getLargestFile_earliest_max_and_empty_zero.1.1,
    getLargestFile_earliest_max_and_empty_zero.1.2
      (HTTPRequest.mk "GET" "/" none)⟩,
    getLargestFile_earliest_max_and_empty_zero.2
      [TorrentFile.mk "a" 3, TorrentFile.mk "b" 5, TorrentFile.mk "c" 5]
      1 (by decide) (by decide) (by decide) (by decide)⟩

/-- `type ClientError struct { Type string; Origin error }` — the
classified construction error.  The Go field `Type` is a reserved word
in Lean and is rendered `errType`; the wrapped error is kept as its
message string. -/
structure ClientError where
  errType : String
  origin : String
deriving DecidableEq, Repr

/-- `func (clientError ClientError) Error() string`:
`fmt.Sprintf("Error %s: %s\n", ...)`. -/
def ClientError.message (e : ClientError) : String :=
  "Error " ++ e.errType ++ ": " ++ e.origin ++ "\n"

/-- An HTTP response as seen by `downloadFile`: `http.Get` returns it
with a nil error for any status code once the transport succeeds. -/
structure HTTPResponse where
  statusCode : ℕ
  body : List ℕ
deriving DecidableEq, Repr

/-- Results of the external calls `downloadFile` makes, in program
order: `ioutil.TempFile` (returning the temp file's name), `http.Get`
(an error only on transport failure), and `io.Copy` of the body. -/
structure DownloadEnv where
  tempFile : Except String String
  get : Except String HTTPResponse
  copyBody : Except String Unit

/-- `func downloadFile(URL string) (fileName string, err error)`:
create a temp file, `http.Get` the URL, copy the response body —
whatever it is — into the file, and return the file's name.  The
response's status code is never inspected. -/
def downloadFile (env : DownloadEnv) : Except String String :=
  match env.tempFile with
  | Except.error e => Except.error e
  | Except.ok name =>
    match env.get with
    | Except.error e => Except.error e
    | Except.ok _response =>
      match env.copyBody with
      | Except.error e => Except.error e
      | Except.ok _ => Except.ok name

/-- Results of the engine calls `NewClient` makes:
`torrent.NewClient`, `c.AddMagnet`, `os.Stat` and
`c.AddTorrentFromFile` (the latter two depending on the path used). -/
structure Engine where
  newClient : Except String Unit
  addMagnet : String → Except String Unit
  stat : String → Except String Unit
  addTorrentFromFile : String → Except String Unit

/-- The full environment of `NewClient`: the engine calls plus the
external calls of the nested `downloadFile`. -/
structure NewClientEnv where
  engine : Engine
  download : DownloadEnv

/-- Whether the first character list starts the second (Go byte-level
comparison of `strings.HasPrefix` and of an anchored regular
expression, rendered over characters). -/
def charsStart : List Char → List Char → Bool
  | [], _ => true
  | _ :: _, [] => false
  | c :: cs, d :: ds => c == d && charsStart cs ds

/-- `strings.HasPrefix(torrentPath, "magnet:")`. -/
def isMagnet (path : String) : Bool :=
  charsStart "magnet:".data path.data

/-- The regular expression `isHTTP`, anchored at the start:
`https?:\/\/`. -/
def isHTTPPath (path : String) : Bool :=
  charsStart "http://".data path.data || charsStart "https://".data path.data

/-- `func NewClient(torrentPath string, port int, seed bool)`, with the
external calls' results supplied by `env` and the returned client
abstracted to `Unit` (the claims concern only the error behaviour):
engine construction, then magnet add, or else optional remote fetch,
`os.Stat`, and torrent-file add — each failure wrapped in a
`ClientError` with the source's `Type` string. -/
def NewClient (env : NewClientEnv) (torrentPath : String) :
    Except ClientError Unit :=
  match env.engine.newClient with
  | Except.error e =>
    Except.error { errType := "creating torrent client", origin := e }
  | Except.ok _ =>
    if isMagnet torrentPath then
      match env.engine.addMagnet torrentPath with
      | Except.error e =>
        Except.error { errType := "adding torrent", origin := e }
      | Except.ok _ => Except.ok ()
    else
      match (if isHTTPPath torrentPath then downloadFile env.download
             else Except.ok torrentPath) with
      | Except.error e =>
        Except.error { errType := "downloading torrent file", origin := e }
      | Except.ok path =>
        match env.engine.stat path with
        | Except.error e =>
          Except.error { errType := "file not found", origin := e }
        | Except.ok _ =>
          match env.engine.addTorrentFromFile path with
          | Except.error e =>
            Except.error { errType := "adding torrent to the client", origin := e }
          | Except.ok _ => Except.ok ()

/-- C6: every construction failure — engine initialisation, magnet add,
remote `.torrent` fetch, missing local file, torrent-file add — makes
`NewClient` return a classified `ClientError` naming the failure kind
instead of a usable client. -/
theorem newClient_fails_with_classified_error (env : NewClientEnv)
    (p : String) (e : String) :
    (env.engine.newClient = Except.error e →
      NewClient env p =
        Except.error { errType := "creating torrent client", origin := e }) ∧
    (isMagnet p = true → env.engine.newClient = Except.ok () →
      env.engine.addMagnet p = Except.error e →
      NewClient env p =
        Except.error { errType := "adding torrent", origin := e }) ∧
    (isMagnet p = false → isHTTPPath p = true →
      env.engine.newClient = Except.ok () →
      downloadFile env.download = Except.error e →
      NewClient env p =
        Except.error { errType := "downloading torrent file", origin := e }) ∧
    (∀ path, isMagnet p = false → env.engine.newClient = Except.ok () →
      (if isHTTPPath p then downloadFile env.download
       else Except.ok p) = Except.ok path →
      env.engine.stat path = Except.error e →
      NewClient env p =
        Except.error { errType := "file not found", origin := e }) ∧
    (∀ path, isMagnet p = false → env.engine.newClient = Except.ok () →
      (if isHTTPPath p then downloadFile env.download
       else Except.ok p) = Except.ok path →
      env.engine.stat path = Except.ok () →
      env.engine.addTorrentFromFile path = Except.error e →
      NewClient env p =
        Except.error { errType := "adding torrent to the client", origin := e }) := by
  refine ⟨?_, ?_, ?_, ?_, ?_⟩
  · intro h1
    unfold NewClient
    rw [h1]
  · intro hm h1 h2
    unfold NewClient
    rw [h1, if_pos hm, h2]
  · intro hm hh h1 h2
    unfold NewClient
    rw [h1, hm, if_pos hh, h2]
    simp
  · intro path hm h1 h2 h3
    unfold NewClient
    rw [h1, hm, h2]
    simp [h3]
  · intro path hm h1 h2 h3 h4
    unfold NewClient
    rw [h1, hm, h2]
    simp [h3, h4]

/-- A test engine whose construction call fails. -/
def engineInitFail : Engine :=
  { newClient := Except.error "boom"
    addMagnet := fun _ => Except.ok ()
    stat := fun _ => Except.ok ()
    addTorrentFromFile := fun _ => Except.ok () }

/-- A test engine whose magnet-add and torrent-file-add calls fail and
whose `os.Stat` reports the file missing. -/
def engineAddFail : Engine :=
  { newClient := Except.ok ()
    addMagnet := fun _ => Except.error "boom"
    stat := fun _ => Except.error "boom"
    addTorrentFromFile := fun _ => Except.error "boom" }

/-- A test engine that constructs and stats successfully but whose
torrent-file-add call fails. -/
def engineAddFileFail : Engine :=
  { newClient := Except.ok ()
    addMagnet := fun _ => Except.ok ()
    stat := fun _ => Except.ok ()
    addTorrentFromFile := fun _ => Except.error "boom" }

/-- A download environment whose `http.Get` fails at the transport
level. -/
def downloadGetFail : DownloadEnv :=
  { tempFile := Except.ok "/tmp/t"
    get := Except.error "boom"
    copyBody := Except.ok () }

/-- A download environment in which all three external calls succeed,
with an HTTP 404 response. -/
def downloadOk404 : DownloadEnv :=
  { tempFile := Except.ok "/tmp/t"
    get := Except.ok { statusCode := 404, body := [1, 2, 3] }
    copyBody := Except.ok () }

/-- Witness for C6: each of the five failure kinds at a concrete
environment. -/
theorem newClient_fails_with_classified_error_witness :
    NewClient { engine := engineInitFail, download := downloadOk404 }
        "magnet:x" =
      Except.error { errType := "creating torrent client", origin := "boom" } ∧
    NewClient { engine := engineAddFail, download := downloadOk404 }
        "magnet:x" =
      Except.error { errType := "adding torrent", origin := "boom" } ∧
    NewClient { engine := engineAddFail, download := downloadGetFail }
        "http://h/a.torrent" =
      Except.error { errType := "downloading torrent file", origin := "boom" } ∧
    NewClient { engine := engineAddFail, download := downloadOk404 }
        "./a.torrent" =
      Except.error { errType := "file not found", origin := "boom" } ∧
    NewClient { engine := engineAddFileFail, download := downloadOk404 }
        "./a.torrent" =
      Except.error { errType := "adding torrent to the client", origin := "boom" } :=
  ⟨(newClient_fails_with_classified_error
      { engine := engineInitFail, download := downloadOk404 }
      "magnet:x" "boom").1 rfl,
    (newClient_fails_with_classified_error
      { engine := engineAddFail, download := downloadOk404 }
      "magnet:x" "boom").2.1 rfl rfl rfl,
    (newClient_fails_with_classified_error
      { engine := engineAddFail, download := downloadGetFail }
      "http://h/a.torrent" "boom").2.2.1 rfl rfl rfl rfl,
    (newClient_fails_with_classified_error
      { engine := engineAddFail, download := downloadOk404 }
      "./a.torrent" "boom").2.2.2.1 "./a.torrent" rfl rfl rfl rfl,
    (newClient_fails_with_classified_error
      { engine := engineAddFileFail, download := downloadOk404 }
      "./a.torrent" "boom").2.2.2.2 "./a.torrent" rfl rfl rfl rfl rfl⟩

/-- C10: once the transport-level GET succeeds, `downloadFile` succeeds
for every response — the status code is never inspected — returning the
temp file's name; given the fetch happened, an error can arise only
from the body copy; and `NewClient` then hands exactly that temp file
on to `os.Stat` and `AddTorrentFromFile`. -/
theorem downloadFile_ignores_status_code (tmp : String)
    (resp : HTTPResponse) (cr : Except String Unit) :
    downloadFile
        { tempFile := Except.ok tmp, get := Except.ok resp,
          copyBody := Except.ok () } = Except.ok tmp ∧
    downloadFile
        { tempFile := Except.ok tmp, get := Except.ok resp,
          copyBody := cr } =
      (match cr with
       | Except.ok _ => Except.ok tmp
       | Except.error e => Except.error e) ∧
    (∀ (env : NewClientEnv) (p : String),
      env.download =
        { tempFile := Except.ok tmp, get := Except.ok resp,
          copyBody := Except.ok () } →
      isMagnet p = false → isHTTPPath p = true →
      env.engine.newClient = Except.ok () →
      NewClient env p =
        (match env.engine.stat tmp with
         | Except.error e =>
           Except.error { errType := "file not found", origin := e }
         | Except.ok _ =>
           match env.engine.addTorrentFromFile tmp with
           | Except.error e =>
             Except.error { errType := "adding torrent to the client", origin := e }
           | Except.ok _ => Except.ok ())) := by
  refine ⟨rfl, ?_, ?_⟩
  · cases cr with
    | ok u =>
      cases u
      rfl
    | error e => rfl
  · intro env p hdl hm hh h1
    unfold NewClient
    rw [h1, hm, if_pos hh, hdl]
    rfl

/-- Witness for C10 on a 404 response and a session whose engine calls
all succeed. -/
theorem downloadFile_ignores_status_code_witness :
    downloadFile
        { tempFile := Except.ok "/tmp/t",
          get := Except.ok { statusCode := 404, body := [1, 2, 3] },
          copyBody := Except.ok () } = Except.ok "/tmp/t" ∧
    NewClient
        { engine :=
            { newClient := Except.ok ()
              addMagnet := fun _ => Except.ok ()
              stat := fun _ => Except.ok ()
              addTorrentFromFile := fun _ => Except.ok () },
          download := downloadOk404 } "http://h/a.torrent" =
      Except.ok () := by
  have h := downloadFile_ignores_status_code "/tmp/t"
    { statusCode := 404, body := [1, 2, 3] } (Except.ok ())
  refine ⟨h.1, ?_⟩
  have h3 := h.2.2
    { engine :=
        { newClient := Except.ok ()
          addMagnet := fun _ => Except.ok ()
          stat := fun _ => Except.ok ()
          addTorrentFromFile := fun _ => Except.ok () },
      download := downloadOk404 } "http://h/a.torrent" rfl rfl rfl rfl
  exact h3

/-- `uint64(x)` conversion of a Go `int64` value: two's-complement
wraparound modulo `2^64`. -/
def toUInt64Val (x : ℤ) : ℤ :=
  x % (2 ^ 64)

/-- The persistent state of the progress reporter inside `Client`: the
single field `Progress int64` holding the previous sample. -/
structure RenderState where
  progress : ℤ
deriving DecidableEq, Repr

/-- The sampling step of `func (c *Client) Render()`:
`currentProgress := t.BytesCompleted()`, display
`humanize.Bytes(uint64(currentProgress - c.Progress)) + "/s"`, and store
`c.Progress = currentProgress`.  Returns the byte count shown in the
speed line together with the updated state. -/
def renderSample (s : RenderState) (bytesCompleted : ℤ) :
    ℤ × RenderState :=
  (toUInt64Val (bytesCompleted - s.progress), { progress := bytesCompleted })

/-- Modelled from the spec: the rendering loop that drives `Render` at a
fixed cadence is not part of `client.go`; the spec fixes the sampling
interval as a constant, and the speed line's displayed unit is per
second, so the interval is one second. -/
def intervalSeconds : ℤ := 1

/-- C8: each `Render` sample reports `(current - previous) /
intervalSeconds` bytes per second (exactly the delta, the interval being
one second) and afterwards retains only the new sample in its single
`Progress` field. -/
theorem renderSample_throughput_and_state (prev cur : ℤ)
    (h0 : prev ≤ cur) (h1 : cur - prev < 2 ^ 64) :
    (renderSample { progress := prev } cur).1 =
      (cur - prev) / intervalSeconds ∧
    (renderSample { progress := prev } cur).2 = { progress := cur } := by
  constructor
  · show toUInt64Val (cur - prev) = (cur - prev) / intervalSeconds
    unfold toUInt64Val intervalSeconds
    rw [Int.emod_eq_of_lt (by omega) h1, Int.ediv_one]
  · rfl

/-- Witness for C8 at a previous sample of 3 and a current sample of
10. -/
theorem renderSample_throughput_and_state_witness :
    (3 : ℤ) ≤ 10 ∧ (10 : ℤ) - 3 < 2 ^ 64 ∧
    ((renderSample { progress := 3 } 10).1 =
        (10 - 3) / intervalSeconds ∧
      (renderSample { progress := 3 } 10).2 = { progress := 10 }) :=
  ⟨by decide, by decide,
    renderSample_throughput_and_state 3 10 (by decide) (by decide)⟩

end Peerflix
